import Mathlib

/-!
Verification of the DD-DRIVE dual-motor PID controller
(`ESP32_Dual_Motor_PID.ino`).

The sketch's `float` arithmetic is embedded over `ℚ` (exact rational
arithmetic); C `int` values are embedded as `ℤ`, the `uint32_t`
millisecond clock as `ℕ` with explicit wrap-around subtraction mod 2^32.
Hardware pin identifiers and the PWM peripheral are not part of the
control state; the levels actually driven onto the two direction pins of
a motor are modelled as the booleans `pinA`/`pinB`.
-/

namespace DDDrive

/-! ### Control constants (sketch section 2, lines 40-59) -/

def PWM_BITS : ℕ := 10

def PWM_MAX : ℤ := (1 <<< PWM_BITS) - 1  -- 1023

def SAMPLE_MS : ℕ := 50

def MIN_DUTY_START : ℤ := 180

def DUTY_MIN : ℤ := 0

def DUTY_MAX : ℤ := PWM_MAX

def Ts : ℚ := (SAMPLE_MS : ℚ) / 1000

def I_MAX : ℚ := 300

/-- The safety clamp bound for incoming HTTP l/r targets (line 285). -/
def CMD_CLAMP : ℤ := 2000

/-- The tunable PID gains `Kp`, `Ki`, `Kd` (sketch lines 54-56; the
sketch configures `Kp=1.0`, `Ki=0.40`, `Kd=0.004`). -/
structure Gains where
  Kp : ℚ
  Ki : ℚ
  Kd : ℚ

/-- The gain values the sketch is configured with. -/
def gains0 : Gains := ⟨1, 2/5, 1/250⟩

/-! ### The Motor data model (sketch struct `Motor`, lines 66-81).

Pin and LEDC-channel identifiers (`inA`, `inB`, `en`, `ledc_ch`) and the
encoder-counter pointer are hardware configuration, not control state;
the *levels* written to the two direction pins are kept as `pinA`/`pinB`.
-/
structure Motor where
  lastCount : ℤ := 0
  target : ℚ := 0
  speed : ℚ := 0
  err : ℚ := 0
  errPrev : ℚ := 0
  integ : ℚ := 0
  deriv : ℚ := 0
  u : ℚ := 0
  duty : ℤ := 0
  dir : ℤ := 1
  pinA : Bool := false
  pinB : Bool := false
  deriving DecidableEq, Repr

/-- A freshly constructed `Motor` (all defaults, as in the C++ struct). -/
def initMotor : Motor := {}

/-- C truncation `(int)x`: toward zero. -/
def cTrunc (x : ℚ) : ℤ := if 0 ≤ x then ⌊x⌋ else ⌈x⌉

/-- Arduino `constrain(amt, low, high)`. -/
def constrain (amt low high : ℤ) : ℤ :=
  if amt < low then low else if amt > high then high else amt

/-! ### Actuation Mapper: `applyMotor` (sketch lines 166-204). -/

/-- Line 168: `m.dir = (m.u >= 0.0f) ? +1 : -1`. -/
def dirOf (u : ℚ) : ℤ := if (0:ℚ) ≤ u then 1 else -1

/-- Lines 171-185: the duty computed from the unclamped effort `u`:
dead zone below magnitude 1, then clamp the magnitude to `PWM_MAX`,
remap linearly into `[MIN_DUTY_START, PWM_MAX]`, clamp the result to
`PWM_MAX` again, and truncate `dutyF + 0.5` to `int`. -/
def dutyOf (u : ℚ) : ℤ :=
  let mag : ℚ := |u|
  if mag < 1 then
    0
  else
    let mag2 := if (PWM_MAX : ℚ) < mag then (PWM_MAX : ℚ) else mag
    let dutyF := (MIN_DUTY_START : ℚ) +
      (mag2 * ((PWM_MAX : ℚ) - (MIN_DUTY_START : ℚ))) / (PWM_MAX : ℚ)
    let dutyF2 := if (PWM_MAX : ℚ) < dutyF then (PWM_MAX : ℚ) else dutyF
    cTrunc (dutyF2 + 1/2)

def applyMotor (m : Motor) : Motor :=
  let dir : ℤ := dirOf m.u
  let duty : ℤ := dutyOf m.u
  -- lines 188-200: L298N direction pins (coast / forward / reverse)
  let pins : Bool × Bool :=
    if duty = 0 then (false, false)
    else if 0 < dir then (true, false)
    else (false, true)
  { m with dir := dir, duty := duty, pinA := pins.1, pinB := pins.2 }

/-! ### PID step: `pidStep` (sketch lines 207-241). -/

/-- The saturation test the code performs (line 218): `m.duty >= PWM_MAX
&& m.u >= PWM_MAX`. -/
abbrev saturatingHigh (m : Motor) : Prop :=
  PWM_MAX ≤ m.duty ∧ (PWM_MAX : ℚ) ≤ m.u

/-- The saturation test the code performs (line 219): `m.duty >= PWM_MAX
&& m.u <= -PWM_MAX`. -/
abbrev saturatingLow (m : Motor) : Prop :=
  PWM_MAX ≤ m.duty ∧ m.u ≤ -(PWM_MAX : ℚ)

/-- The saturating-high predicate as the specification words it:
`duty == DUTY_MAX` (an equality, not `>=`). -/
abbrev saturatingHighEq (m : Motor) : Prop :=
  m.duty = DUTY_MAX ∧ (DUTY_MAX : ℚ) ≤ m.u

/-- The saturating-low predicate as the specification words it. -/
abbrev saturatingLowEq (m : Motor) : Prop :=
  m.duty = DUTY_MAX ∧ m.u ≤ -(DUTY_MAX : ℚ)

/-- Clamping of the integral accumulator to `[-I_MAX, I_MAX]`
(sketch lines 228-229). -/
def clampI (x : ℚ) : ℚ :=
  if x > I_MAX then I_MAX else if x < -I_MAX then -I_MAX else x

def pidStep (g : Gains) (m : Motor) : Motor :=
  let err := m.target - m.speed
  let P := g.Kp * err
  -- `shouldIntegrate` is false exactly when (saturatingHigh ∧ err > 0)
  -- or (saturatingLow ∧ err < 0); the branches of the `if` below are the
  -- skip (then) and integrate-and-clamp (else) paths of lines 221-230.
  let integ :=
    if (saturatingHigh m ∧ 0 < err) ∨ (saturatingLow m ∧ err < 0) then
      m.integ
    else
      clampI (m.integ + g.Ki * err)
  let deriv := g.Kd * (err - m.errPrev)
  let u := P + integ + deriv
  applyMotor { m with err := err, errPrev := err, integ := integ,
                      deriv := deriv, u := u }

/-! ### Speed estimator: `updateSpeed` (sketch lines 244-252).
The interrupt-protected counter read is modelled by passing the counter
value `nowCnt` as an argument. -/

def updateSpeed (m : Motor) (nowCnt : ℤ) : Motor :=
  { m with lastCount := nowCnt,
           speed := ((nowCnt - m.lastCount : ℤ) : ℚ) / Ts }

/-- A finite run of PID steps from a state, each step first receiving a
(target, measured-speed) pair written into the channel. -/
def runSteps (g : Gains) (m : Motor) : List (ℚ × ℚ) → Motor
  | [] => m
  | (t, s) :: rest => runSteps g (pidStep g { m with target := t, speed := s }) rest

/-! ### Command sources.

`handleSerial` (sketch lines 255-278) reads a line, trims it, and then
branches on: empty line (silent return), the literal `stop`, a line that
`sscanf("%d %d")` parses into two integers, and anything else
(rejected).  The libc parse itself is external; its four possible
outcomes on the trimmed line are the four constructors below. -/

inductive SerialLine where
  | empty : SerialLine
  | stop : SerialLine
  | nums (l r : ℤ) : SerialLine
  | malformed : SerialLine
  deriving DecidableEq, Repr

/-- Serial command handler, acting on the pair `(M1, M2)` of motor
states; returns the new pair and the line printed to the serial port
(`none` when the handler returns silently). -/
def handleSerial : SerialLine → Motor × Motor → (Motor × Motor) × Option String
  | .empty, ms => (ms, none)
  | .stop, (a, b) =>
      (({ a with target := 0 }, { b with target := 0 }),
       some "STOP command received")
  | .nums l r, (a, b) =>
      (({ a with target := (l : ℚ) }, { b with target := (r : ℚ) }),
       some "Serial CMD")
  | .malformed, ms =>
      (ms, some "Invalid format. Use: <left> <right> or stop")

/-- An HTTP query argument as seen by the `/cmd` handler: either a
numeric string (whose `toInt` value is `n`) or a non-numeric string.
Arduino `String::toInt` (libc `atol`) returns 0 on a string with no
leading numeric prefix. -/
inductive ArgV where
  | num (n : ℤ) : ArgV
  | nonNumeric : ArgV
  deriving DecidableEq, Repr

/-- Arduino `String::toInt` of an argument value. -/
def argToInt : ArgV → ℤ
  | .num n => n
  | .nonNumeric => 0

/-- The HTTP `/cmd` handler (sketch lines 307-321).  `l`/`r` are `none`
when the corresponding query argument is absent (`server.hasArg` false).
Returns the new motor pair and the HTTP response (status code, body). -/
def handleCmd (l r : Option ArgV) (ms : Motor × Motor) :
    (Motor × Motor) × (ℕ × String) :=
  match l, r with
  | some la, some ra =>
      let li := constrain (argToInt la) (-CMD_CLAMP) CMD_CLAMP
      let ri := constrain (argToInt ra) (-CMD_CLAMP) CMD_CLAMP
      (({ ms.1 with target := (li : ℚ) }, { ms.2 with target := (ri : ℚ) }),
       (200, "OK L=" ++ toString li ++ " R=" ++ toString ri))
  | _, _ => (ms, (400, "Error: missing l or r parameter"))

/-- The HTTP `/stop` handler (sketch lines 324-329). -/
def handleStop (ms : Motor × Motor) : (Motor × Motor) × (ℕ × String) :=
  (({ ms.1 with target := 0 }, { ms.2 with target := 0 }), (200, "OK STOP"))

/-! ### Control scheduler (sketch `loop`, lines 375-401). -/

/-- `uint32_t` subtraction `a - b` with wrap-around mod `2^32`,
for operands already reduced below `2^32`. -/
def sub32 (a b : ℕ) : ℕ := (a + (2 ^ 32 - b % 2 ^ 32)) % 2 ^ 32

/-- The scheduler state: the pacing reference timestamp `lastMs` and the
two motor channels. -/
structure SysState where
  lastMs : ℕ
  m1 : Motor
  m2 : Motor
  deriving DecidableEq, Repr

/-- One poll of the fixed-rate control block of `loop` (sketch lines
383-400): if `now - lastMs >= SAMPLE_MS` run one tick — set
`lastMs = now`, then `updateSpeed(M1); updateSpeed(M2); pidStep(M1);
pidStep(M2)` in the code's order — else do nothing.  `cnt1`/`cnt2` are
the encoder counter values the tick's `updateSpeed` calls read. -/
def loopPoll (g : Gains) (s : SysState) (now : ℕ) (cnt1 cnt2 : ℤ) : SysState :=
  if SAMPLE_MS ≤ sub32 now s.lastMs then
    let lastMs := now
    let m1 := updateSpeed s.m1 cnt1
    let m2 := updateSpeed s.m2 cnt2
    let m1 := pidStep g m1
    let m2 := pidStep g m2
    { lastMs := lastMs, m1 := m1, m2 := m2 }
  else s

/-! ### Basic evaluation lemmas -/

theorem PWM_MAX_eq : PWM_MAX = 1023 := by decide

theorem DUTY_MAX_eq : DUTY_MAX = 1023 := by decide

/-! ### Helper lemmas about the Actuation Mapper -/

theorem cTrunc_of_nonneg {x : ℚ} (h : 0 ≤ x) : cTrunc x = ⌊x⌋ := if_pos h

/-- In the non-dead-zone branch, the final clamp of `dutyF` is a no-op
and the duty is `⌊180 + min |u| 1023 * 843 / 1023 + 1/2⌋`. -/
theorem dutyOf_of_one_le {u : ℚ} (h : 1 ≤ |u|) :
    dutyOf u = ⌊(180 : ℚ) + (min |u| 1023 * 843) / 1023 + 1/2⌋ := by
  have habs : ¬ |u| < 1 := not_lt.2 h
  have h0 : (0:ℚ) ≤ |u| := abs_nonneg u
  rw [dutyOf]
  simp only [habs, if_false, PWM_MAX_eq, MIN_DUTY_START]
  norm_num only
  rcases lt_or_le (1023 : ℚ) |u| with hgt | hle
  · rw [if_pos hgt, min_eq_right hgt.le]
    have hc : ¬ ((1023:ℚ) < 180 + 1023 * 843 / 1023) := by norm_num
    rw [if_neg hc]
    have hx : (0:ℚ) ≤ 180 + 1023 * 843 / 1023 + 1/2 := by norm_num
    rw [cTrunc_of_nonneg hx]
  · rw [if_neg (not_lt.2 hle), min_eq_left hle]
    have hle2 : ¬ ((1023:ℚ) < 180 + |u| * 843 / 1023) := by
      push_neg
      nlinarith
    rw [if_neg hle2]
    have hx : (0:ℚ) ≤ 180 + |u| * 843 / 1023 + 1/2 := by positivity
    rw [cTrunc_of_nonneg hx]

theorem dutyOf_nonneg (u : ℚ) : 0 ≤ dutyOf u := by
  rcases lt_or_le |u| 1 with h | h
  · rw [dutyOf, if_pos h]
  · rw [dutyOf_of_one_le h]
    have : (0:ℚ) ≤ (180 : ℚ) + (min |u| 1023 * 843) / 1023 + 1/2 := by
      have : (0:ℚ) ≤ min |u| 1023 := le_min (abs_nonneg u) (by norm_num)
      positivity
    exact_mod_cast Int.le_floor.2 (by exact_mod_cast this)

theorem dutyOf_le_max (u : ℚ) : dutyOf u ≤ PWM_MAX := by
  rw [PWM_MAX_eq]
  rcases lt_or_le |u| 1 with h | h
  · rw [dutyOf, if_pos h]; norm_num
  · rw [dutyOf_of_one_le h]
    have hmin : min |u| 1023 ≤ (1023:ℚ) := min_le_right _ _
    have hlt : (⌊(180 : ℚ) + (min |u| 1023 * 843) / 1023 + 1/2⌋ : ℤ) < 1024 := by
      rw [Int.floor_lt]
      push_cast
      have : min |u| 1023 * 843 ≤ (1023:ℚ) * 843 := by nlinarith
      nlinarith
    omega

theorem dutyOf_min_start {u : ℚ} (h : 1 ≤ |u|) :
    MIN_DUTY_START ≤ dutyOf u := by
  rw [dutyOf_of_one_le h, MIN_DUTY_START]
  have h0 : (0:ℚ) ≤ min |u| 1023 := le_min (abs_nonneg u) (by norm_num)
  have hterm : (0:ℚ) ≤ (min |u| 1023 * 843) / 1023 :=
    div_nonneg (mul_nonneg h0 (by norm_num)) (by norm_num)
  have h180 : (180:ℚ) ≤ (180 : ℚ) + (min |u| 1023 * 843) / 1023 + 1/2 := by
    linarith
  exact Int.le_floor.2 (by exact_mod_cast h180)

theorem dutyOf_pos {u : ℚ} (h : 1 ≤ |u|) : 0 < dutyOf u :=
  lt_of_lt_of_le (by norm_num [MIN_DUTY_START]) (dutyOf_min_start h)

theorem dutyOf_eq_zero_iff (u : ℚ) : dutyOf u = 0 ↔ |u| < 1 := by
  constructor
  · intro h
    by_contra hc
    exact absurd h (dutyOf_pos (not_lt.1 hc)).ne'
  · intro h
    rw [dutyOf, if_pos h]

theorem dutyOf_mono {u₁ u₂ : ℚ} (h1 : 1 ≤ |u₁|) (h2 : |u₁| ≤ |u₂|) :
    dutyOf u₁ ≤ dutyOf u₂ := by
  rw [dutyOf_of_one_le h1, dutyOf_of_one_le (h1.trans h2)]
  apply Int.floor_le_floor
  have hmin : min |u₁| 1023 ≤ min |u₂| (1023:ℚ) := min_le_min h2 le_rfl
  have hmul := mul_le_mul_of_nonneg_right hmin (by norm_num : (0:ℚ) ≤ 843)
  linarith

/-- Projections of `applyMotor`. -/
theorem applyMotor_duty (m : Motor) : (applyMotor m).duty = dutyOf m.u := rfl

theorem applyMotor_dir (m : Motor) : (applyMotor m).dir = dirOf m.u := rfl

theorem applyMotor_integ (m : Motor) : (applyMotor m).integ = m.integ := rfl

theorem applyMotor_u (m : Motor) : (applyMotor m).u = m.u := rfl

theorem applyMotor_pins_coast (m : Motor) (h : dutyOf m.u = 0) :
    (applyMotor m).pinA = false ∧ (applyMotor m).pinB = false := by
  simp [applyMotor, h]

/-! ### Helper lemmas about the PID step -/

theorem clampI_mem (x : ℚ) : -I_MAX ≤ clampI x ∧ clampI x ≤ I_MAX := by
  rw [clampI, I_MAX]
  split_ifs <;> constructor <;> linarith

/-- The integral accumulator written by one PID step. -/
theorem pidStep_integ (g : Gains) (m : Motor) :
    (pidStep g m).integ =
      if (saturatingHigh m ∧ 0 < m.target - m.speed) ∨
         (saturatingLow m ∧ m.target - m.speed < 0) then
        m.integ
      else
        clampI (m.integ + g.Ki * (m.target - m.speed)) := rfl

/-- The effort written by one PID step. -/
theorem pidStep_u (g : Gains) (m : Motor) :
    (pidStep g m).u =
      g.Kp * (m.target - m.speed) + (pidStep g m).integ +
        g.Kd * (m.target - m.speed - m.errPrev) := by
  rw [pidStep_integ]
  rfl

/-- The duty written by one PID step is the Actuation Mapper's duty of
the effort it wrote. -/
theorem pidStep_duty (g : Gains) (m : Motor) :
    (pidStep g m).duty = dutyOf (pidStep g m).u := rfl

theorem pidStep_target (g : Gains) (m : Motor) :
    (pidStep g m).target = m.target := rfl

theorem pidStep_speed (g : Gains) (m : Motor) :
    (pidStep g m).speed = m.speed := rfl

/-- A PID step keeps the integral accumulator inside `[-I_MAX, I_MAX]`
whenever it starts there (either branch of the anti-windup test). -/
theorem pidStep_integ_mem (g : Gains) (m : Motor)
    (h : -I_MAX ≤ m.integ ∧ m.integ ≤ I_MAX) :
    -I_MAX ≤ (pidStep g m).integ ∧ (pidStep g m).integ ≤ I_MAX := by
  rw [pidStep_integ]
  split_ifs
  · exact h
  · exact clampI_mem _

/-- Duty bounds hold after every PID step, unconditionally. -/
theorem pidStep_duty_mem (g : Gains) (m : Motor) :
    0 ≤ (pidStep g m).duty ∧ (pidStep g m).duty ≤ PWM_MAX := by
  rw [pidStep_duty]
  exact ⟨dutyOf_nonneg _, dutyOf_le_max _⟩

/-- With the duty bounded by `PWM_MAX`, the code's `>=` saturation tests
coincide with the specification's `==` forms. -/
theorem saturating_iff_of_le (m : Motor) (hd : m.duty ≤ PWM_MAX) :
    (saturatingHigh m ↔ saturatingHighEq m) ∧
    (saturatingLow m ↔ saturatingLowEq m) := by
  constructor
  · constructor
    · rintro ⟨h1, h2⟩; exact ⟨le_antisymm hd h1, h2⟩
    · rintro ⟨h1, h2⟩; exact ⟨le_of_eq h1.symm, h2⟩
  · constructor
    · rintro ⟨h1, h2⟩; exact ⟨le_antisymm hd h1, h2⟩
    · rintro ⟨h1, h2⟩; exact ⟨le_of_eq h1.symm, h2⟩

/-! ### Run invariants -/

theorem runSteps_integ_mem (g : Gains) (inputs : List (ℚ × ℚ)) :
    ∀ m : Motor, -I_MAX ≤ m.integ ∧ m.integ ≤ I_MAX →
      -I_MAX ≤ (runSteps g m inputs).integ ∧
        (runSteps g m inputs).integ ≤ I_MAX := by
  induction inputs with
  | nil => intro m h; exact h
  | cons p rest ih =>
      intro m h
      obtain ⟨t, s⟩ := p
      exact ih _ (pidStep_integ_mem g { m with target := t, speed := s } h)

theorem runSteps_duty_mem (g : Gains) (inputs : List (ℚ × ℚ)) :
    ∀ m : Motor, 0 ≤ m.duty ∧ m.duty ≤ PWM_MAX →
      0 ≤ (runSteps g m inputs).duty ∧
        (runSteps g m inputs).duty ≤ PWM_MAX := by
  induction inputs with
  | nil => intro m h; exact h
  | cons p rest ih =>
      intro m _
      obtain ⟨t, s⟩ := p
      exact ih _ (pidStep_duty_mem g { m with target := t, speed := s })

/-- On a state whose duty does not exceed `PWM_MAX`, the integral
written by a PID step is governed by the specification's `==`-form
saturation predicates. -/
theorem pidStep_integ_spec (g : Gains) (m : Motor) (hd : m.duty ≤ PWM_MAX) :
    (pidStep g m).integ =
      if (saturatingHighEq m ∧ 0 < m.target - m.speed) ∨
         (saturatingLowEq m ∧ m.target - m.speed < 0) then
        m.integ
      else
        clampI (m.integ + g.Ki * (m.target - m.speed)) := by
  rw [pidStep_integ]
  obtain ⟨hh, hl⟩ := saturating_iff_of_le m hd
  by_cases hc : (saturatingHigh m ∧ 0 < m.target - m.speed) ∨
      (saturatingLow m ∧ m.target - m.speed < 0)
  · rw [if_pos hc, if_pos (by tauto)]
  · rw [if_neg hc, if_neg (by tauto)]

/-! ### The claims -/

/-- Claim C2: for every finite sequence of PID steps from the initial
state (`integral = 0`), with arbitrary targets, measured velocities and
gains, the integral accumulator stays in `[-I_MAX, I_MAX]` after every
step (also across steps that skip integration and do not clamp). -/
theorem integral_always_in_range (g : Gains) (inputs : List (ℚ × ℚ)) :
    -I_MAX ≤ (runSteps g initMotor inputs).integ ∧
      (runSteps g initMotor inputs).integ ≤ I_MAX :=
  runSteps_integ_mem g inputs initMotor
    (by show -I_MAX ≤ (0:ℚ) ∧ (0:ℚ) ≤ I_MAX; rw [I_MAX]; norm_num)

/-- Claim C10: the implemented saturation predicates compare duty with
`>= PWM_MAX` while the specification words them with `== DUTY_MAX`; on
every state reachable through the Actuation Mapper the duty never
exceeds `DUTY_MAX`, so the two forms agree there. -/
theorem saturation_ge_iff_eq_on_reachable (g : Gains) (inputs : List (ℚ × ℚ)) :
    0 ≤ (runSteps g initMotor inputs).duty ∧
    (runSteps g initMotor inputs).duty ≤ DUTY_MAX ∧
    (saturatingHigh (runSteps g initMotor inputs) ↔
      saturatingHighEq (runSteps g initMotor inputs)) ∧
    (saturatingLow (runSteps g initMotor inputs) ↔
      saturatingLowEq (runSteps g initMotor inputs)) := by
  obtain ⟨h1, h2⟩ := runSteps_duty_mem g inputs initMotor
    (by show 0 ≤ (0:ℤ) ∧ (0:ℤ) ≤ PWM_MAX; rw [PWM_MAX_eq]; norm_num)
  obtain ⟨hh, hl⟩ := saturating_iff_of_le _ h2
  exact ⟨h1, h2, hh, hl⟩

/-- Claim C7: with the configured gains, a first PID step from rest with
`target = 1000`, `measured = 0` produces `error = 1000`, `P = 1000`,
integral clamped to 300, `D = 4`, `u = 1304`, then full duty 1023 with
direction +1. -/
theorem scenario2_first_step :
    gains0.Kp = 1 ∧ gains0.Ki = 2/5 ∧ gains0.Kd = 1/250 ∧ I_MAX = 300 ∧
    (pidStep gains0 { initMotor with target := 1000, speed := 0 }).err = 1000 ∧
    gains0.Kp * 1000 = 1000 ∧
    (pidStep gains0 { initMotor with target := 1000, speed := 0 }).integ = 300 ∧
    (pidStep gains0 { initMotor with target := 1000, speed := 0 }).deriv = 4 ∧
    (pidStep gains0 { initMotor with target := 1000, speed := 0 }).u = 1304 ∧
    (pidStep gains0 { initMotor with target := 1000, speed := 0 }).duty = 1023 ∧
    (pidStep gains0 { initMotor with target := 1000, speed := 0 }).dir = 1 := by
  simp only [pidStep, applyMotor, dutyOf, dirOf, gains0, initMotor, clampI,
    cTrunc, saturatingHigh, saturatingLow, PWM_MAX_eq, MIN_DUTY_START, I_MAX]
  norm_num

/-- Claim C5: the Actuation Mapper's contract — direction from the sign
of `u`; dead zone below magnitude 1 with both pins released; otherwise
the rounded linear remap of the clamped magnitude, always within
`[0, DUTY_MAX]` and at least `MIN_DUTY_START` outside the dead zone. -/
theorem actuation_mapper_contract (m : Motor) :
    ((applyMotor m).dir = if (0:ℚ) ≤ m.u then 1 else -1) ∧
    (|m.u| < 1 →
      (applyMotor m).duty = 0 ∧ (applyMotor m).pinA = false ∧
        (applyMotor m).pinB = false) ∧
    (1 ≤ |m.u| →
      (applyMotor m).duty =
        round ((MIN_DUTY_START : ℚ) +
          min |m.u| (DUTY_MAX : ℚ) * ((DUTY_MAX : ℚ) - (MIN_DUTY_START : ℚ)) /
            (DUTY_MAX : ℚ)) ∧
      MIN_DUTY_START ≤ (applyMotor m).duty) ∧
    0 ≤ (applyMotor m).duty ∧ (applyMotor m).duty ≤ DUTY_MAX := by
  refine ⟨rfl, ?_, ?_, dutyOf_nonneg _, dutyOf_le_max _⟩
  · intro h
    have hz : dutyOf m.u = 0 := (dutyOf_eq_zero_iff _).2 h
    obtain ⟨hA, hB⟩ := applyMotor_pins_coast m hz
    exact ⟨hz, hA, hB⟩
  · intro h
    refine ⟨?_, dutyOf_min_start h⟩
    rw [applyMotor_duty, dutyOf_of_one_le h, round_eq]
    congr 1
    simp only [MIN_DUTY_START, DUTY_MAX_eq]
    push_cast
    norm_num

/-- Claim C6: the Actuation Mapper duty is monotonically non-decreasing
in `|u|` on `|u| ≥ 1`, and the duty is zero exactly in the dead zone
`|u| < 1`. -/
theorem duty_monotone_and_deadzone :
    (∀ m₁ m₂ : Motor, 1 ≤ |m₁.u| → |m₁.u| ≤ |m₂.u| →
      (applyMotor m₁).duty ≤ (applyMotor m₂).duty) ∧
    (∀ m : Motor, ((applyMotor m).duty = 0 ↔ |m.u| < 1)) := by
  constructor
  · intro m₁ m₂ h1 h2
    rw [applyMotor_duty, applyMotor_duty]
    exact dutyOf_mono h1 h2
  · intro m
    rw [applyMotor_duty]
    exact dutyOf_eq_zero_iff _

/-- Witness for claim C5 at `u = 1/2` (dead zone) and `u = 1304`. -/
theorem actuation_mapper_contract_witness :
    |(( { initMotor with u := (1/2 : ℚ) } : Motor)).u| < 1 ∧
    (applyMotor { initMotor with u := (1/2 : ℚ) }).duty = 0 ∧
    (applyMotor { initMotor with u := (1/2 : ℚ) }).pinA = false ∧
    (1:ℚ) ≤ |(( { initMotor with u := (1304 : ℚ) } : Motor)).u| ∧
    MIN_DUTY_START ≤ (applyMotor { initMotor with u := (1304 : ℚ) }).duty := by
  have hlt : |(( { initMotor with u := (1/2 : ℚ) } : Motor)).u| < 1 := by
    show |(1/2 : ℚ)| < 1
    rw [abs_lt]
    constructor <;> norm_num
  have hge : (1:ℚ) ≤ |(( { initMotor with u := (1304 : ℚ) } : Motor)).u| := by
    show (1:ℚ) ≤ |(1304 : ℚ)|
    norm_num
  obtain ⟨hz, hA, _⟩ := (actuation_mapper_contract { initMotor with u := (1/2 : ℚ) }).2.1 hlt
  obtain ⟨_, hmin⟩ := (actuation_mapper_contract { initMotor with u := (1304 : ℚ) }).2.2.1 hge
  exact ⟨hlt, hz, hA, hge, hmin⟩

/-- Witness for claim C6: monotonicity applied at `|u| = 5 ≤ 500` and
the dead-zone characterisation at `u = 1/2`. -/
theorem duty_monotone_and_deadzone_witness :
    (1:ℚ) ≤ |(( { initMotor with u := (5 : ℚ) } : Motor)).u| ∧
    (applyMotor { initMotor with u := (5 : ℚ) }).duty ≤
      (applyMotor { initMotor with u := (-500 : ℚ) }).duty ∧
    (applyMotor { initMotor with u := (1/2 : ℚ) }).duty = 0 := by
  have h1 : (1:ℚ) ≤ |(( { initMotor with u := (5 : ℚ) } : Motor)).u| := by
    show (1:ℚ) ≤ |(5 : ℚ)|
    norm_num
  have h2 : |(( { initMotor with u := (5 : ℚ) } : Motor)).u| ≤
      |(( { initMotor with u := (-500 : ℚ) } : Motor)).u| := by
    show |(5:ℚ)| ≤ |(-500 : ℚ)|
    norm_num
  refine ⟨h1, duty_monotone_and_deadzone.1 _ _ h1 h2, ?_⟩
  exact (duty_monotone_and_deadzone.2 _).2
    (by show |(1/2 : ℚ)| < 1; rw [abs_lt]; constructor <;> norm_num)

/-- Claim C1: on any state whose duty is within range (every reachable
state — claim C10), a PID step skips the integral update exactly when
saturating-high (spec's `duty == DUTY_MAX` form) with positive error or
saturating-low with negative error, and otherwise adds `Ki * error` and
clamps to `[-I_MAX, I_MAX]`; in particular two consecutive
saturating-high steps with positive error leave the integral unchanged. -/
theorem integral_skip_iff_saturating (g : Gains) (m : Motor)
    (hd : m.duty ≤ DUTY_MAX) :
    (∀ t s : ℚ,
      (pidStep g { m with target := t, speed := s }).integ =
        if (saturatingHighEq m ∧ 0 < t - s) ∨
           (saturatingLowEq m ∧ t - s < 0) then
          m.integ
        else
          clampI (m.integ + g.Ki * (t - s))) ∧
    (∀ t₁ s₁ t₂ s₂ : ℚ,
      saturatingHighEq m → 0 < t₁ - s₁ →
      saturatingHighEq (pidStep g { m with target := t₁, speed := s₁ }) →
      0 < t₂ - s₂ →
      (pidStep g { pidStep g { m with target := t₁, speed := s₁ } with
          target := t₂, speed := s₂ }).integ = m.integ ∧
      (pidStep g { m with target := t₁, speed := s₁ }).integ = m.integ) := by
  have key : ∀ t s : ℚ,
      (pidStep g { m with target := t, speed := s }).integ =
        if (saturatingHighEq m ∧ 0 < t - s) ∨
           (saturatingLowEq m ∧ t - s < 0) then
          m.integ
        else
          clampI (m.integ + g.Ki * (t - s)) := by
    intro t s
    exact pidStep_integ_spec g { m with target := t, speed := s } hd
  refine ⟨key, ?_⟩
  intro t₁ s₁ t₂ s₂ h1 h2 h3 h4
  have e1 : (pidStep g { m with target := t₁, speed := s₁ }).integ = m.integ := by
    rw [key t₁ s₁, if_pos (Or.inl ⟨h1, h2⟩)]
  have hd1 : (pidStep g { m with target := t₁, speed := s₁ }).duty ≤ PWM_MAX :=
    (pidStep_duty_mem g _).2
  have hd2 : ({ pidStep g { m with target := t₁, speed := s₁ } with
      target := t₂, speed := s₂ } : Motor).duty ≤ PWM_MAX := hd1
  have e2 : (pidStep g { pidStep g { m with target := t₁, speed := s₁ } with
      target := t₂, speed := s₂ }).integ =
      (pidStep g { m with target := t₁, speed := s₁ }).integ := by
    rw [pidStep_integ_spec g { pidStep g { m with target := t₁, speed := s₁ } with
      target := t₂, speed := s₂ } hd2, if_pos (Or.inl ⟨h3, h4⟩)]
  exact ⟨e2.trans e1, e1⟩

/-- Witness for claim C1: a saturated state with `duty = 1023`,
`u = 2000`, `integral = 7`; a step with positive error leaves the
integral at 7. -/
theorem integral_skip_iff_saturating_witness :
    (( { initMotor with duty := 1023, u := 2000, integ := 7 } : Motor)).duty
      ≤ DUTY_MAX ∧
    (pidStep gains0 { { initMotor with duty := 1023, u := 2000, integ := 7 }
        with target := 10, speed := 0 }).integ = 7 := by
  have hd : (( { initMotor with duty := 1023, u := 2000, integ := 7 } :
      Motor)).duty ≤ DUTY_MAX := by decide
  refine ⟨hd, ?_⟩
  have h := (integral_skip_iff_saturating gains0
    { initMotor with duty := 1023, u := 2000, integ := 7 } hd).1 10 0
  rw [h, if_pos]
  left
  constructor
  · constructor
    · decide
    · show ((DUTY_MAX : ℤ) : ℚ) ≤ 2000
      rw [DUTY_MAX_eq]
      norm_num
  · norm_num

/-- `constrain` lands in `[low, high]` when `low ≤ high`. -/
theorem constrain_mem (x low high : ℤ) (h : low ≤ high) :
    low ≤ constrain x low high ∧ constrain x low high ≤ high := by
  rw [constrain]
  split_ifs <;> omega

/-- Claim C3 counterexample: submitting `(2500, 0)` through the serial
parser stores target 2500 — not the claimed clamped 2000 — although the
configured safety bound is 2000. -/
theorem serial_cmd_unclamped_counterexample :
    CMD_CLAMP = 2000 ∧
    (handleSerial (SerialLine.nums 2500 0) (initMotor, initMotor)).1.1.target
      = 2500 ∧
    (handleSerial (SerialLine.nums 2500 0) (initMotor, initMotor)).1.1.target
      ≠ 2000 := by
  refine ⟨rfl, ?_, ?_⟩ <;> norm_num [handleSerial]

/-- Claim C3 amended: only the HTTP `/cmd` handler clamps each incoming
value to `[-CMD_CLAMP, CMD_CLAMP]` before writing the targets — in
particular `(2500, 0)` is stored as `(2000, 0)` —, while the serial
parser writes the parsed values unclamped. -/
theorem cmd_clamping_http_only :
    (∀ (la ra : ArgV) (a b : Motor),
      (handleCmd (some la) (some ra) (a, b)).1.1.target =
        ((constrain (argToInt la) (-CMD_CLAMP) CMD_CLAMP : ℤ) : ℚ) ∧
      (handleCmd (some la) (some ra) (a, b)).1.2.target =
        ((constrain (argToInt ra) (-CMD_CLAMP) CMD_CLAMP : ℤ) : ℚ) ∧
      -(CMD_CLAMP : ℚ) ≤ (handleCmd (some la) (some ra) (a, b)).1.1.target ∧
      (handleCmd (some la) (some ra) (a, b)).1.1.target ≤ (CMD_CLAMP : ℚ) ∧
      -(CMD_CLAMP : ℚ) ≤ (handleCmd (some la) (some ra) (a, b)).1.2.target ∧
      (handleCmd (some la) (some ra) (a, b)).1.2.target ≤ (CMD_CLAMP : ℚ)) ∧
    ((handleCmd (some (ArgV.num 2500)) (some (ArgV.num 0))
        (initMotor, initMotor)).1.1.target = 2000 ∧
     (handleCmd (some (ArgV.num 2500)) (some (ArgV.num 0))
        (initMotor, initMotor)).1.2.target = 0) ∧
    (∀ (l r : ℤ) (a b : Motor),
      (handleSerial (SerialLine.nums l r) (a, b)).1.1.target = (l : ℚ) ∧
      (handleSerial (SerialLine.nums l r) (a, b)).1.2.target = (r : ℚ)) := by
  refine ⟨?_, ?_, ?_⟩
  · intro la ra a b
    have hL := constrain_mem (argToInt la) (-CMD_CLAMP) CMD_CLAMP (by decide)
    have hR := constrain_mem (argToInt ra) (-CMD_CLAMP) CMD_CLAMP (by decide)
    refine ⟨rfl, rfl, ?_, ?_, ?_, ?_⟩
    · show -(CMD_CLAMP : ℚ) ≤ ((constrain (argToInt la) (-CMD_CLAMP) CMD_CLAMP : ℤ) : ℚ)
      exact_mod_cast hL.1
    · show ((constrain (argToInt la) (-CMD_CLAMP) CMD_CLAMP : ℤ) : ℚ) ≤ (CMD_CLAMP : ℚ)
      exact_mod_cast hL.2
    · show -(CMD_CLAMP : ℚ) ≤ ((constrain (argToInt ra) (-CMD_CLAMP) CMD_CLAMP : ℤ) : ℚ)
      exact_mod_cast hR.1
    · show ((constrain (argToInt ra) (-CMD_CLAMP) CMD_CLAMP : ℤ) : ℚ) ≤ (CMD_CLAMP : ℚ)
      exact_mod_cast hR.2
  · constructor <;> norm_num [handleCmd, argToInt, constrain, CMD_CLAMP]
  · intro l r a b
    exact ⟨rfl, rfl⟩

/-- Claim C4 counterexample: an HTTP `/cmd` request with non-numeric
`l`/`r` arguments is *not* rejected — `toInt` yields 0, both targets are
overwritten (1500 becomes 0) and a 200 success response is returned. -/
theorem http_nonnumeric_mutates_counterexample :
    ({ initMotor with target := 1500 } : Motor).target = 1500 ∧
    (handleCmd (some ArgV.nonNumeric) (some ArgV.nonNumeric)
      ({ initMotor with target := 1500 }, { initMotor with target := 1500 })
      ).1.1.target = 0 ∧
    (handleCmd (some ArgV.nonNumeric) (some ArgV.nonNumeric)
      ({ initMotor with target := 1500 }, { initMotor with target := 1500 })
      ).1.2.target = 0 ∧
    (handleCmd (some ArgV.nonNumeric) (some ArgV.nonNumeric)
      ({ initMotor with target := 1500 }, { initMotor with target := 1500 })
      ).2.1 = 200 := by
  refine ⟨rfl, ?_, ?_, rfl⟩ <;>
    norm_num [handleCmd, argToInt, constrain, CMD_CLAMP]

/-- Claim C4 amended: a malformed serial line is rejected with a
diagnostic and no state change, and an HTTP `/cmd` request missing `l`
or `r` is rejected with status 400 and no state change; but an HTTP
request whose arguments are present yet non-numeric is not rejected:
`toInt` maps them to 0 and both targets are set to 0 with a 200
response. -/
theorem malformed_rejection_scope :
    (∀ a b : Motor,
      (handleSerial SerialLine.malformed (a, b)).1 = (a, b) ∧
      (handleSerial SerialLine.malformed (a, b)).2 =
        some "Invalid format. Use: <left> <right> or stop") ∧
    (∀ (r : Option ArgV) (a b : Motor),
      handleCmd none r (a, b) =
        ((a, b), (400, "Error: missing l or r parameter"))) ∧
    (∀ (la : ArgV) (a b : Motor),
      handleCmd (some la) none (a, b) =
        ((a, b), (400, "Error: missing l or r parameter"))) ∧
    (∀ a b : Motor,
      (handleCmd (some ArgV.nonNumeric) (some ArgV.nonNumeric) (a, b)
        ).1.1.target = 0 ∧
      (handleCmd (some ArgV.nonNumeric) (some ArgV.nonNumeric) (a, b)
        ).1.2.target = 0 ∧
      (handleCmd (some ArgV.nonNumeric) (some ArgV.nonNumeric) (a, b)
        ).2.1 = 200) := by
  refine ⟨fun a b => ⟨rfl, rfl⟩, fun r a b => ?_, fun la a b => rfl, ?_⟩
  · cases r <;> rfl
  · intro a b
    refine ⟨?_, ?_, rfl⟩ <;> norm_num [handleCmd, argToInt, constrain, CMD_CLAMP]

/-- Claim C8: a stop command (serial `stop` or HTTP `/stop`) zeroes both
targets and changes no other MotorChannel field. -/
theorem stop_zeroes_targets_only (a b : Motor) :
    (handleSerial SerialLine.stop (a, b)).1 =
      ({ a with target := 0 }, { b with target := 0 }) ∧
    (handleStop (a, b)).1 =
      ({ a with target := 0 }, { b with target := 0 }) ∧
    (handleSerial SerialLine.stop (a, b)).1.1.integ = a.integ ∧
    (handleSerial SerialLine.stop (a, b)).1.1.duty = a.duty ∧
    (handleSerial SerialLine.stop (a, b)).1.1.dir = a.dir ∧
    (handleSerial SerialLine.stop (a, b)).1.1.speed = a.speed ∧
    (handleSerial SerialLine.stop (a, b)).1.1.err = a.err ∧
    (handleSerial SerialLine.stop (a, b)).1.1.errPrev = a.errPrev ∧
    (handleSerial SerialLine.stop (a, b)).1.1.u = a.u ∧
    (handleSerial SerialLine.stop (a, b)).1.2.integ = b.integ ∧
    (handleSerial SerialLine.stop (a, b)).1.2.duty = b.duty ∧
    (handleSerial SerialLine.stop (a, b)).1.2.dir = b.dir ∧
    (handleSerial SerialLine.stop (a, b)).1.2.speed = b.speed ∧
    (handleSerial SerialLine.stop (a, b)).1.2.err = b.err ∧
    (handleSerial SerialLine.stop (a, b)).1.2.errPrev = b.errPrev ∧
    (handleSerial SerialLine.stop (a, b)).1.2.u = b.u ∧
    (handleStop (a, b)).1.1.integ = a.integ ∧
    (handleStop (a, b)).1.1.duty = a.duty ∧
    (handleStop (a, b)).1.1.dir = a.dir ∧
    (handleStop (a, b)).1.2.integ = b.integ ∧
    (handleStop (a, b)).1.2.duty = b.duty ∧
    (handleStop (a, b)).1.2.dir = b.dir :=
  ⟨rfl, rfl, rfl, rfl, rfl, rfl, rfl, rfl, rfl, rfl, rfl, rfl, rfl, rfl,
   rfl, rfl, rfl, rfl, rfl, rfl, rfl, rfl⟩

/-- Claim C9: on each scheduler poll, a tick runs if and only if
`now - lastMs ≥ SAMPLE_MS` (uint32 wrap-around subtraction); the
reference is then set to `now` (not `lastMs + SAMPLE_MS`), and each
channel's new state is `pidStep ∘ updateSpeed` of its own old state —
exactly one PID step per channel, speed estimate first, with no coupling
between the two channels. -/
theorem scheduler_pacing (g : Gains) (s : SysState) (now : ℕ) (c1 c2 : ℤ) :
    (SAMPLE_MS ≤ sub32 now s.lastMs →
      loopPoll g s now c1 c2 =
        { lastMs := now,
          m1 := pidStep g (updateSpeed s.m1 c1),
          m2 := pidStep g (updateSpeed s.m2 c2) }) ∧
    (sub32 now s.lastMs < SAMPLE_MS → loopPoll g s now c1 c2 = s) := by
  constructor
  · intro h
    simp only [loopPoll, if_pos h]
  · intro h
    simp only [loopPoll, if_neg (not_le.2 h)]

/-- Witness for claim C9: polling at `now = 137` with `lastMs = 0` runs
a tick and sets the reference to 137 (not `0 + 50`); polling at
`now = 30` does nothing. -/
theorem scheduler_pacing_witness :
    SAMPLE_MS ≤ sub32 137 0 ∧
    (loopPoll gains0 ⟨0, initMotor, initMotor⟩ 137 3 4).lastMs = 137 ∧
    (137 : ℕ) ≠ 0 + SAMPLE_MS ∧
    sub32 30 0 < SAMPLE_MS ∧
    loopPoll gains0 ⟨0, initMotor, initMotor⟩ 30 3 4 = ⟨0, initMotor, initMotor⟩ := by
  have h1 : SAMPLE_MS ≤ sub32 137 0 := by
    rw [sub32, SAMPLE_MS]
    norm_num
  have h2 : sub32 30 0 < SAMPLE_MS := by
    rw [sub32, SAMPLE_MS]
    norm_num
  refine ⟨h1, ?_, by decide, h2,
    (scheduler_pacing gains0 ⟨0, initMotor, initMotor⟩ 30 3 4).2 h2⟩
  rw [(scheduler_pacing gains0 ⟨0, initMotor, initMotor⟩ 137 3 4).1 h1]

end DDDrive
